import Mathlib

/-!
Shallow embedding of the order lifecycle and simulated-execution engine of
Hyper-Alpha-Arena (`backend/services/order_matching.py` and
`backend/services/paper_trading_engine.py`).

Monetary quantities are embedded as exact rationals (`ℚ`): the source performs
all arithmetic on `Decimal` values and only round-trips them through
`str`/`float` when storing fields, so at this level of abstraction every
arithmetic step of the source maps to the corresponding exact `ℚ` operation.
The model is specialised to a single account and a single (symbol, market)
pair, which is the scope of every claim: the source's position lookup keyed by
(account_id, symbol, market) becomes the single `Option Position` slot of a
`Ledger`.  Randomness in the execution simulator is made explicit: every value
the source draws from `random` is a field of a `Rand` record supplied by the
caller, so theorems quantify over all draws.
-/

namespace Arena

/-- Order/trade side, the source's `side` strings BUY / SELL. -/
inductive Side where
  | BUY
  | SELL
deriving DecidableEq, Repr

/-- Order type, the source's `order_type` strings MARKET / LIMIT. -/
inductive OrderType where
  | MARKET
  | LIMIT
deriving DecidableEq, Repr

/-- Order / simulation status strings of the source. -/
inductive OrderStatus where
  | PENDING
  | FILLED
  | PARTIALLY_FILLED
  | REJECTED
  | CANCELLED
deriving DecidableEq, Repr

/-- Rejection reasons of `simulate_order_execution`: the liquidity-cap
rejection of step 1 (a string naming the maximum order value) versus the
random transient rejections of step 2 (drawn from a fixed list of strings).
The model keeps only the tag that distinguishes the two families. -/
inductive RejectionReason where
  | liquidityCap
  | transientError
deriving DecidableEq, Repr

/-- Account rows touched by the engine: `current_cash` and `frozen_cash`. -/
structure Account where
  current_cash : ℚ
  frozen_cash : ℚ
deriving DecidableEq, Repr

/-- Position row for the single (account, symbol, market) of the model. -/
structure Position where
  quantity : ℚ
  available_quantity : ℚ
  avg_cost : ℚ
deriving DecidableEq, Repr

/-- Order row fields read or written by the engine. -/
structure Order where
  side : Side
  order_type : OrderType
  price : Option ℚ
  quantity : ℚ
  filled_quantity : ℚ
  status : OrderStatus
  slippage : Option ℚ
  rejection_reason : Option RejectionReason
deriving DecidableEq, Repr

/-- Trade record created by `_execute_order` for every fill. -/
structure Trade where
  side : Side
  price : ℚ
  quantity : ℚ
  commission : ℚ
deriving DecidableEq, Repr

/-- The persistent state a settlement touches: the account, the (single)
position slot, and the append-only trade table. -/
structure Ledger where
  account : Account
  position : Option Position
  trades : List Trade
deriving DecidableEq, Repr

/-- Modelled from the spec: `CRYPTO_COMMISSION_RATE` is imported by
`order_matching.py` from `database/models.py`, which is not among the sources;
the spec fixes "commission rate e.g. 0.1%" (§8, market-buy scenario). -/
def CRYPTO_COMMISSION_RATE : ℚ := 1 / 1000

/-- Modelled from the spec: `CRYPTO_MIN_COMMISSION` is imported by
`order_matching.py` from `database/models.py`, which is not among the sources;
the spec fixes "min commission $1" (§8, market-buy scenario). -/
def CRYPTO_MIN_COMMISSION : ℚ := 1

/-- `_calc_commission` of `order_matching.py`:
`max(notional * COMMISSION_RATE, MIN_COMMISSION)`. -/
def calc_commission (notional : ℚ) : ℚ :=
  max (notional * CRYPTO_COMMISSION_RATE) CRYPTO_MIN_COMMISSION

/-! ### Execution simulator (`paper_trading_engine.py`) -/

/-- `PaperTradingEngine.MAX_ORDER_VALUE_USD`. -/
def MAX_ORDER_VALUE_USD : ℚ := 100000

/-- `PaperTradingEngine.PARTIAL_FILL_THRESHOLD_USD`. -/
def PARTIAL_FILL_THRESHOLD_USD : ℚ := 10000

/-- `PaperTradingEngine.PARTIAL_FILL_PROBABILITY`. -/
def PARTIAL_FILL_PROBABILITY : ℚ := 1 / 10

/-- `PaperTradingEngine.BASE_REJECTION_PROBABILITY`. -/
def BASE_REJECTION_PROBABILITY : ℚ := 1 / 50

/-- The values `simulate_order_execution` draws from `random`, made explicit:
`reject_roll` is the `random.random()` of step 2, `slippage_bps` the output of
`_calculate_slippage`, `partial_roll` the `random.random()` of step 5 and
`fill_pct` the `random.uniform(0.5, 0.9)` of the partial-fill branch. -/
structure Rand where
  reject_roll : ℚ
  slippage_bps : ℚ
  partial_roll : ℚ
  fill_pct : ℚ
deriving DecidableEq, Repr

/-- The `SimulationResult` dataclass of `paper_trading_engine.py`. -/
structure SimulationResult where
  status : OrderStatus
  execution_price : Option ℚ
  filled_quantity : Option ℚ
  slippage : Option ℚ
  rejection_reason : Option RejectionReason
deriving DecidableEq, Repr

/-- `PaperTradingEngine.simulate_order_execution`.  The latency step (step 3)
sleeps and has no other effect, so it leaves no trace in the result.  The
`limit_price` argument is accepted and never read, exactly as in the source. -/
def simulate_order_execution (side : Side) (quantity current_price : ℚ)
    (_limit_price : Option ℚ) (r : Rand) : SimulationResult :=
  let order_value := current_price * quantity
  if order_value > MAX_ORDER_VALUE_USD then
    { status := .REJECTED, execution_price := none, filled_quantity := none,
      slippage := none, rejection_reason := some .liquidityCap }
  else if r.reject_roll < BASE_REJECTION_PROBABILITY then
    { status := .REJECTED, execution_price := none, filled_quantity := none,
      slippage := none, rejection_reason := some .transientError }
  else
    let slippage_multiplier := 1 + r.slippage_bps / 10000
    let execution_price :=
      if side = .BUY then current_price * slippage_multiplier
      else current_price / slippage_multiplier
    let fillres :=
      if order_value > PARTIAL_FILL_THRESHOLD_USD ∧
         r.partial_roll < PARTIAL_FILL_PROBABILITY then
        (quantity * r.fill_pct, OrderStatus.PARTIALLY_FILLED)
      else
        (quantity, OrderStatus.FILLED)
    let slippage_pct := |execution_price - current_price| / current_price
    { status := fillres.2, execution_price := some execution_price,
      filled_quantity := some fillres.1, slippage := some slippage_pct,
      rejection_reason := none }

/-! ### Settlement (`_execute_order` and helpers of `order_matching.py`) -/

/-- `_release_frozen_on_fill`: for BUY orders, release
`execution_price * order.quantity + commission` from frozen cash, floored at
zero.  Note the source uses the order's full `quantity` here, not the filled
quantity, while `commission` is the one computed from the filled notional. -/
def release_frozen_on_fill (account : Account) (order : Order)
    (execution_price commission : ℚ) : Account :=
  if order.side = .BUY then
    let notional := execution_price * order.quantity
    let frozen_to_release := notional + commission
    { account with
      frozen_cash := max (account.frozen_cash - frozen_to_release) 0 }
  else account

/-- Common tail of `_execute_order` (source lines 328–357): create the trade
record, release frozen cash, set `filled_quantity`, set the order status from
fill completeness, and store the slippage when one was provided. -/
def finish_fill (order : Order) (account : Account) (position : Option Position)
    (trades : List Trade) (execution_price quantity commission : ℚ)
    (slippage : Option ℚ) : Bool × Order × Ledger :=
  let trade : Trade :=
    { side := order.side, price := execution_price, quantity := quantity,
      commission := commission }
  let account := release_frozen_on_fill account order execution_price commission
  let order :=
    { order with
      filled_quantity := quantity,
      status :=
        if order.quantity ≤ quantity then OrderStatus.FILLED
        else OrderStatus.PARTIALLY_FILLED,
      slippage :=
        match slippage with
        | some s => some s
        | none => order.slippage }
  (true, order, { account := account, position := position,
                  trades := trades ++ [trade] })

/-- `_execute_order`: settle a fill against the ledger.  Returns the success
flag together with the updated order row and ledger; an abort returns `false`
with both unchanged (the source's early `return False`, before any write, or
its rollback). -/
def execute_order (order : Order) (l : Ledger) (execution_price : ℚ)
    (filled_quantity : Option ℚ) (slippage : Option ℚ) :
    Bool × Order × Ledger :=
  let quantity := filled_quantity.getD order.quantity
  let notional := execution_price * quantity
  let commission := calc_commission notional
  if order.side = .BUY then
    let cash_needed := notional + commission
    if l.account.current_cash < cash_needed then (false, order, l)
    else
      let account :=
        { l.account with current_cash := l.account.current_cash - cash_needed }
      let position := l.position.getD
        { quantity := 0, available_quantity := 0, avg_cost := 0 }
      let old_qty := position.quantity
      let old_cost := position.avg_cost
      let new_qty := old_qty + quantity
      let new_avg_cost :=
        if old_qty = 0 then execution_price
        else (old_cost * old_qty + notional) / new_qty
      let position :=
        { position with
          quantity := new_qty,
          available_quantity := position.available_quantity + quantity,
          avg_cost := new_avg_cost }
      finish_fill order account (some position) l.trades execution_price
        quantity commission slippage
  else
    match l.position with
    | none => (false, order, l)
    | some position =>
      if position.available_quantity < quantity then (false, order, l)
      else
        let position :=
          { position with
            quantity := position.quantity - quantity,
            available_quantity := position.available_quantity - quantity }
        let cash_gain := notional - commission
        let account :=
          { l.account with current_cash := l.account.current_cash + cash_gain }
        finish_fill order account (some position) l.trades execution_price
          quantity commission slippage

/-! ### Matching/trigger engine (`check_and_execute_order`) -/

/-- The `should_execute` decision of `check_and_execute_order` (source lines
156–179): MARKET orders are always eligible; a LIMIT BUY is eligible iff its
limit price is at or above the market, a LIMIT SELL iff at or below.  A LIMIT
order without a price makes the source raise inside the surrounding `try`,
which `check_and_execute_order` turns into `return False`; the model folds
that path into ineligibility. -/
def should_execute (order : Order) (current_price : ℚ) : Bool :=
  match order.order_type with
  | .MARKET => true
  | .LIMIT =>
    match order.price with
    | none => false
    | some limit_price =>
      if order.side = .BUY then decide (limit_price ≥ current_price)
      else decide (limit_price ≤ current_price)

/-- The order as the simulated-rejection branch of `check_and_execute_order`
leaves it: status REJECTED with the simulator's rejection reason. -/
def rejectedOrder (o : Order) (reason : Option RejectionReason) : Order :=
  { o with status := OrderStatus.REJECTED, rejection_reason := reason }

/-- `check_and_execute_order`: no-op on non-PENDING orders; evaluate the
execution condition against the current market price; hand eligible orders to
the simulator (whose reference price is the market price, the limit price
being passed only as the simulator's unread `limit_price` argument); on a
simulated rejection mark the order REJECTED and return false; otherwise settle
with the simulator's execution price and filled quantity. -/
def check_and_execute_order (order : Order) (l : Ledger) (current_price : ℚ)
    (r : Rand) : Bool × Order × Ledger :=
  if order.status ≠ .PENDING then (false, order, l)
  else if ¬ should_execute order current_price then (false, order, l)
  else
    let sim := simulate_order_execution order.side order.quantity current_price
      order.price r
    if sim.status = .REJECTED then
      (false, rejectedOrder order sim.rejection_reason, l)
    else
      execute_order order l (sim.execution_price.getD 0) sim.filled_quantity
        sim.slippage

/-! ### Cancellation (`cancel_order` and `_release_frozen_on_cancel`) -/

/-- `_release_frozen_on_cancel`: for BUY orders, estimate the frozen amount
from the order price (defaulting to 100.0 when the order has no positive
price), and release notional + commission from frozen cash, floored at
zero. -/
def release_frozen_on_cancel (account : Account) (order : Order) : Account :=
  if order.side = .BUY then
    let ref_price := (order.price.getD 0)
    let ref_price := if ref_price ≤ 0 then (100 : ℚ) else ref_price
    let notional := ref_price * order.quantity
    let commission := calc_commission notional
    let release_amt := notional + commission
    { account with frozen_cash := max (account.frozen_cash - release_amt) 0 }
  else account

/-- The order as `cancel_order` leaves it: status set to CANCELLED. -/
def cancelledOrder (o : Order) : Order :=
  { o with status := OrderStatus.CANCELLED }

/-- `cancel_order`: only valid from PENDING (anything else returns false with
no mutation); on success the order becomes CANCELLED and the frozen cash
reserved for a BUY order is released. -/
def cancel_order (order : Order) (l : Ledger) : Bool × Order × Ledger :=
  if order.status ≠ .PENDING then (false, order, l)
  else
    let order := cancelledOrder order
    let account := release_frozen_on_cancel l.account order
    (true, order, { l with account := account })

/-! ### Order factory (`create_order`) -/

/-- Validation failures raised by `create_order` (`ValueError` messages in the
source, distinguished here by tag). -/
inductive CreateError where
  | invalidQuantity
  | invalidPrice
  | priceUnavailable
  | insufficientCash
  | insufficientPosition
deriving DecidableEq, Repr

/-- `create_order`: validate the request against the account's cash (BUY,
against the reference price: the market price for MARKET orders, the limit
price for LIMIT orders) or the position's available quantity (SELL), and
return a PENDING order with `filled_quantity = 0`.  The source writes only the
new order row: the account and position are read, never written, so the
embedding returns just the created order. -/
def create_order (account : Account) (position : Option Position)
    (side : Side) (order_type : OrderType) (price : Option ℚ) (quantity : ℚ)
    (market_price : Option ℚ) : Except CreateError Order :=
  if quantity ≤ 0 then .error .invalidQuantity
  else if order_type = .LIMIT ∧ (price.getD 0) ≤ 0 then .error .invalidPrice
  else
    let check_price? :=
      match order_type with
      | .MARKET => market_price
      | .LIMIT => price
    match check_price? with
    | none => .error .priceUnavailable
    | some check_price =>
      let ok : Except CreateError Unit :=
        if side = .BUY then
          let notional := check_price * quantity
          let commission := calc_commission notional
          let cash_needed := notional + commission
          if account.current_cash < cash_needed then .error .insufficientCash
          else .ok ()
        else
          match position with
          | none => .error .insufficientPosition
          | some p =>
            if p.available_quantity < quantity then
              .error .insufficientPosition
            else .ok ()
      ok.map fun _ =>
        { side := side, order_type := order_type, price := price,
          quantity := quantity, filled_quantity := 0,
          status := OrderStatus.PENDING, slippage := none,
          rejection_reason := none }

/-! ### Sequences of settlements -/

/-- Effective settled quantity of a settlement call, as computed at the top of
`_execute_order` (`filled_quantity` when given, else the order's quantity). -/
def settleQty (o : Order) (fq : Option ℚ) : ℚ := fq.getD o.quantity

/-- Notional of a settlement call at its execution price. -/
def settleNotional (o : Order) (ep : ℚ) (fq : Option ℚ) : ℚ :=
  ep * settleQty o fq

/-- One settlement event: the order being filled together with the execution
price, filled quantity and slippage passed to `_execute_order`. -/
structure Fill where
  order : Order
  execution_price : ℚ
  filled_quantity : Option ℚ
  slippage : Option ℚ
deriving DecidableEq, Repr

/-- Effective settled quantity of a fill (`filled_quantity` when given,
otherwise the order's full quantity, as in `_execute_order`). -/
def Fill.qty (f : Fill) : ℚ :=
  settleQty f.order f.filled_quantity

/-- Notional value of a fill at its execution price. -/
def Fill.notional (f : Fill) : ℚ :=
  settleNotional f.order f.execution_price f.filled_quantity

/-- Run a sequence of settlement calls against a ledger, recording whether
every call returned true, and threading the ledger through (a failed call
leaves the ledger unchanged, as `_execute_order` does). -/
def run_fills : Ledger → List Fill → Bool × Ledger
  | l, [] => (true, l)
  | l, f :: fs =>
    let r := execute_order f.order l f.execution_price f.filled_quantity
      f.slippage
    let rest := run_fills r.2.2 fs
    (r.1 && rest.1, rest.2)

/-- Net effect of one successful fill on `current_cash`: BUY pays notional
plus commission, SELL receives notional minus commission. -/
def Fill.cash_delta (f : Fill) : ℚ :=
  if f.order.side = .BUY then -(f.notional + calc_commission f.notional)
  else f.notional - calc_commission f.notional

/-- Commission charged on a fill's notional. -/
def Fill.commission (f : Fill) : ℚ := calc_commission f.notional

/-- Concrete order builder used by witness theorems: a fresh order as
`create_order` produces it. -/
def sampleOrder (side : Side) (order_type : OrderType) (price : Option ℚ)
    (quantity : ℚ) : Order :=
  { side := side, order_type := order_type, price := price,
    quantity := quantity, filled_quantity := 0, status := .PENDING,
    slippage := none, rejection_reason := none }

/-- Concrete ledger builder used by witness theorems. -/
def sampleLedger (cash frozen : ℚ) (pos : Option Position) : Ledger :=
  { account := { current_cash := cash, frozen_cash := frozen },
    position := pos, trades := [] }

/-- Concrete BUY fill used by witness theorems: buy 1 unit at price 10. -/
def wBuyFill : Fill :=
  { order := sampleOrder .BUY .MARKET none 1, execution_price := 10,
    filled_quantity := none, slippage := none }

/-- Concrete SELL fill used by witness theorems: sell 1 unit at price 20. -/
def wSellFill : Fill :=
  { order := sampleOrder .SELL .MARKET none 1, execution_price := 20,
    filled_quantity := none, slippage := none }

/-- Concrete ledger used by witness theorems: 100 cash, no position. -/
def wLedger : Ledger := sampleLedger 100 0 none

/-- Concrete ledger holding one unit of the asset. -/
def wPosLedger : Ledger :=
  sampleLedger 100 0 (some ⟨1, 1, 0⟩)

/-! ## Helper lemmas -/

lemma release_frozen_on_fill_current_cash (a : Account) (o : Order)
    (ep c : ℚ) :
    (release_frozen_on_fill a o ep c).current_cash = a.current_cash := by
  unfold release_frozen_on_fill
  split <;> rfl

lemma release_frozen_on_fill_frozen_nonneg (a : Account) (o : Order)
    (ep c : ℚ) (h : 0 ≤ a.frozen_cash) :
    0 ≤ (release_frozen_on_fill a o ep c).frozen_cash := by
  unfold release_frozen_on_fill
  split
  · exact le_max_right _ _
  · exact h

lemma release_frozen_on_cancel_current_cash (a : Account) (o : Order) :
    (release_frozen_on_cancel a o).current_cash = a.current_cash := by
  unfold release_frozen_on_cancel
  split <;> rfl

lemma release_frozen_on_cancel_frozen_nonneg (a : Account) (o : Order)
    (h : 0 ≤ a.frozen_cash) :
    0 ≤ (release_frozen_on_cancel a o).frozen_cash := by
  unfold release_frozen_on_cancel
  split
  · exact le_max_right _ _
  · exact h

/-- A successful settlement moves `current_cash` by exactly the claim's
signed amount: minus (notional + commission) for BUY, plus
(notional − commission) for SELL. -/
lemma execute_order_success_cash (o : Order) (l : Ledger) (ep : ℚ)
    (fq sl : Option ℚ) (h : (execute_order o l ep fq sl).1 = true) :
    (execute_order o l ep fq sl).2.2.account.current_cash =
      l.account.current_cash +
        (if o.side = .BUY then
          -(settleNotional o ep fq + calc_commission (settleNotional o ep fq))
         else
          settleNotional o ep fq - calc_commission (settleNotional o ep fq)) := by
  unfold execute_order at h ⊢
  unfold settleNotional settleQty
  by_cases hside : o.side = .BUY
  · simp only [hside, ite_true] at h ⊢
    by_cases hc : l.account.current_cash <
        ep * fq.getD o.quantity + calc_commission (ep * fq.getD o.quantity)
    · simp [hc] at h
    · simp only [hc, ite_false, if_neg hc] at h ⊢
      simp only [finish_fill, release_frozen_on_fill_current_cash]
      ring
  · simp only [hside, ite_false] at h ⊢
    cases hp : l.position with
    | none => rw [hp] at h; simp at h
    | some p =>
      rw [hp] at h
      by_cases hc : p.available_quantity < fq.getD o.quantity
      · simp [hc] at h
      · simp only [hc, ite_false, if_neg hc] at h ⊢
        simp only [finish_fill, release_frozen_on_fill_current_cash]

/-- Full characterisation of a successful BUY settlement: cash debited by
notional + commission, position incremented with the weighted-average cost
update, a trade appended, frozen cash released, order marked filled. -/
lemma execute_order_buy_eq (o : Order) (l : Ledger) (ep : ℚ) (fq sl : Option ℚ)
    (hside : o.side = .BUY)
    (hc : ¬ l.account.current_cash <
      settleNotional o ep fq + calc_commission (settleNotional o ep fq)) :
    execute_order o l ep fq sl =
      (true,
       { o with
         filled_quantity := settleQty o fq,
         status := if o.quantity ≤ settleQty o fq then OrderStatus.FILLED
                   else OrderStatus.PARTIALLY_FILLED,
         slippage := match sl with | some s => some s | none => o.slippage },
       { account :=
           release_frozen_on_fill
             { l.account with
               current_cash := l.account.current_cash -
                 (settleNotional o ep fq +
                   calc_commission (settleNotional o ep fq)) }
             o ep (calc_commission (settleNotional o ep fq)),
         position := some
           { quantity := (l.position.getD ⟨0, 0, 0⟩).quantity + settleQty o fq,
             available_quantity :=
               (l.position.getD ⟨0, 0, 0⟩).available_quantity + settleQty o fq,
             avg_cost :=
               if (l.position.getD ⟨0, 0, 0⟩).quantity = 0 then ep
               else ((l.position.getD ⟨0, 0, 0⟩).avg_cost *
                       (l.position.getD ⟨0, 0, 0⟩).quantity +
                     settleNotional o ep fq) /
                    ((l.position.getD ⟨0, 0, 0⟩).quantity + settleQty o fq) },
         trades := l.trades ++
           [{ side := o.side, price := ep, quantity := settleQty o fq,
              commission := calc_commission (settleNotional o ep fq) }] }) := by
  unfold settleNotional settleQty at hc ⊢
  unfold execute_order
  simp only [hside, ite_true, if_neg hc, finish_fill]

/-- Full characterisation of a successful SELL settlement: position
decremented, cash credited with notional − commission, a trade appended. -/
lemma execute_order_sell_eq (o : Order) (l : Ledger) (ep : ℚ) (fq sl : Option ℚ)
    (hside : o.side ≠ .BUY) (p : Position) (hp : l.position = some p)
    (hc : ¬ p.available_quantity < settleQty o fq) :
    execute_order o l ep fq sl =
      (true,
       { o with
         filled_quantity := settleQty o fq,
         status := if o.quantity ≤ settleQty o fq then OrderStatus.FILLED
                   else OrderStatus.PARTIALLY_FILLED,
         slippage := match sl with | some s => some s | none => o.slippage },
       { account :=
           { l.account with
             current_cash := l.account.current_cash +
               (settleNotional o ep fq -
                 calc_commission (settleNotional o ep fq)) },
         position := some
           { quantity := p.quantity - settleQty o fq,
             available_quantity := p.available_quantity - settleQty o fq,
             avg_cost := p.avg_cost },
         trades := l.trades ++
           [{ side := o.side, price := ep, quantity := settleQty o fq,
              commission := calc_commission (settleNotional o ep fq) }] }) := by
  unfold settleQty at hc
  unfold settleNotional settleQty
  unfold execute_order
  simp only [hside, ite_false, hp, if_neg hc, finish_fill,
    release_frozen_on_fill, if_neg hside]

/-- BUY settlement with insufficient cash aborts with no mutation. -/
lemma execute_order_buy_insufficient (o : Order) (l : Ledger) (ep : ℚ)
    (fq sl : Option ℚ) (hside : o.side = .BUY)
    (hc : l.account.current_cash <
      settleNotional o ep fq + calc_commission (settleNotional o ep fq)) :
    execute_order o l ep fq sl = (false, o, l) := by
  unfold settleNotional settleQty at hc
  unfold execute_order
  simp only [hside, ite_true, if_pos hc]

/-- SELL settlement with no position aborts with no mutation. -/
lemma execute_order_sell_no_position (o : Order) (l : Ledger) (ep : ℚ)
    (fq sl : Option ℚ) (hside : o.side ≠ .BUY) (hp : l.position = none) :
    execute_order o l ep fq sl = (false, o, l) := by
  unfold execute_order
  simp only [hside, ite_false, hp]

/-- SELL settlement with insufficient available quantity aborts with no
mutation. -/
lemma execute_order_sell_insufficient (o : Order) (l : Ledger) (ep : ℚ)
    (fq sl : Option ℚ) (hside : o.side ≠ .BUY) (p : Position)
    (hp : l.position = some p)
    (hc : p.available_quantity < settleQty o fq) :
    execute_order o l ep fq sl = (false, o, l) := by
  unfold settleQty at hc
  unfold execute_order
  simp only [hside, ite_false, hp, if_pos hc]

/-- A failed settlement returns the order and ledger unchanged. -/
lemma execute_order_fail (o : Order) (l : Ledger) (ep : ℚ)
    (fq sl : Option ℚ) (h : (execute_order o l ep fq sl).1 = false) :
    execute_order o l ep fq sl = (false, o, l) := by
  unfold execute_order at h ⊢
  by_cases hside : o.side = .BUY
  · simp only [hside, ite_true] at h ⊢
    by_cases hc : l.account.current_cash <
        ep * fq.getD o.quantity + calc_commission (ep * fq.getD o.quantity)
    · simp only [hc, ite_true, if_pos hc]
    · simp [hc, finish_fill] at h
  · simp only [hside, ite_false] at h ⊢
    cases hp : l.position with
    | none => rfl
    | some p =>
      rw [hp] at h
      by_cases hc : p.available_quantity < fq.getD o.quantity
      · simp only [hc, ite_true, if_pos hc]
      · simp [hc, finish_fill] at h

/-- A successful BUY settlement had sufficient cash. -/
lemma execute_order_buy_success_sufficient (o : Order) (l : Ledger) (ep : ℚ)
    (fq sl : Option ℚ) (hside : o.side = .BUY)
    (h : (execute_order o l ep fq sl).1 = true) :
    ¬ l.account.current_cash <
      settleNotional o ep fq + calc_commission (settleNotional o ep fq) := by
  intro hc
  rw [execute_order_buy_insufficient o l ep fq sl hside hc] at h
  simp at h

/-- A successful SELL settlement had a position with sufficient available
quantity. -/
lemma execute_order_sell_success_sufficient (o : Order) (l : Ledger) (ep : ℚ)
    (fq sl : Option ℚ) (hside : o.side ≠ .BUY)
    (h : (execute_order o l ep fq sl).1 = true) :
    ∃ p, l.position = some p ∧ ¬ p.available_quantity < settleQty o fq := by
  cases hp : l.position with
  | none =>
    rw [execute_order_sell_no_position o l ep fq sl hside hp] at h
    simp at h
  | some p =>
    refine ⟨p, rfl, fun hc => ?_⟩
    rw [execute_order_sell_insufficient o l ep fq sl hside p hp hc] at h
    simp at h

/-- A successful settlement appends exactly one trade, priced at the
execution price with the effective quantity and its commission. -/
lemma execute_order_success_trades (o : Order) (l : Ledger) (ep : ℚ)
    (fq sl : Option ℚ) (h : (execute_order o l ep fq sl).1 = true) :
    (execute_order o l ep fq sl).2.2.trades =
      l.trades ++
        [{ side := o.side, price := ep, quantity := settleQty o fq,
           commission := calc_commission (settleNotional o ep fq) }] := by
  by_cases hside : o.side = .BUY
  · have hc := execute_order_buy_success_sufficient o l ep fq sl hside h
    rw [execute_order_buy_eq o l ep fq sl hside hc]
  · obtain ⟨p, hp, hc⟩ :=
      execute_order_sell_success_sufficient o l ep fq sl hside h
    rw [execute_order_sell_eq o l ep fq sl hside p hp hc]

/-- Settlement preserves the position invariant `0 ≤ available ≤ quantity`
provided the settled quantity is nonnegative. -/
lemma execute_order_pos_invariant (o : Order) (l : Ledger) (ep : ℚ)
    (fq sl : Option ℚ) (hq : 0 ≤ settleQty o fq)
    (hinv : ∀ p, l.position = some p →
      0 ≤ p.available_quantity ∧ p.available_quantity ≤ p.quantity) :
    ∀ p, (execute_order o l ep fq sl).2.2.position = some p →
      0 ≤ p.available_quantity ∧ p.available_quantity ≤ p.quantity := by
  by_cases hflag : (execute_order o l ep fq sl).1 = true
  · by_cases hside : o.side = .BUY
    · have hc := execute_order_buy_success_sufficient o l ep fq sl hside hflag
      rw [execute_order_buy_eq o l ep fq sl hside hc]
      intro p hp
      have h0 : 0 ≤ (l.position.getD ⟨0, 0, 0⟩).available_quantity ∧
          (l.position.getD ⟨0, 0, 0⟩).available_quantity ≤
            (l.position.getD ⟨0, 0, 0⟩).quantity := by
        cases hl : l.position with
        | none => simp
        | some p0 => simpa [hl] using hinv p0 hl
      obtain rfl := (Option.some_inj.mp hp).symm
      constructor
      · exact add_nonneg h0.1 hq
      · exact add_le_add_right h0.2 _
    · obtain ⟨p0, hp0, hc⟩ :=
        execute_order_sell_success_sufficient o l ep fq sl hside hflag
      rw [execute_order_sell_eq o l ep fq sl hside p0 hp0 hc]
      intro p hp
      obtain rfl := (Option.some_inj.mp hp).symm
      have h0 := hinv p0 hp0
      constructor
      · exact sub_nonneg.mpr (not_lt.mp hc)
      · exact sub_le_sub_right h0.2 _
  · rw [execute_order_fail o l ep fq sl (by simpa using hflag)]
    exact hinv

/-- Settlement preserves `available_quantity = quantity`: BUY increments both
by the filled quantity (creating the position at (0, 0) when absent), SELL
decrements both by it, and aborts change nothing. -/
lemma execute_order_avail_eq_qty (o : Order) (l : Ledger) (ep : ℚ)
    (fq sl : Option ℚ)
    (hinv : ∀ p, l.position = some p → p.available_quantity = p.quantity) :
    ∀ p, (execute_order o l ep fq sl).2.2.position = some p →
      p.available_quantity = p.quantity := by
  by_cases hflag : (execute_order o l ep fq sl).1 = true
  · by_cases hside : o.side = .BUY
    · have hc := execute_order_buy_success_sufficient o l ep fq sl hside hflag
      rw [execute_order_buy_eq o l ep fq sl hside hc]
      intro p hp
      have h0 : (l.position.getD ⟨0, 0, 0⟩).available_quantity =
          (l.position.getD ⟨0, 0, 0⟩).quantity := by
        cases hl : l.position with
        | none => simp
        | some p0 => simpa [hl] using hinv p0 hl
      obtain rfl := (Option.some_inj.mp hp).symm
      simpa using congrArg (· + settleQty o fq) h0
    · obtain ⟨p0, hp0, hc⟩ :=
        execute_order_sell_success_sufficient o l ep fq sl hside hflag
      rw [execute_order_sell_eq o l ep fq sl hside p0 hp0 hc]
      intro p hp
      obtain rfl := (Option.some_inj.mp hp).symm
      simpa using congrArg (· - settleQty o fq) (hinv p0 hp0)
  · rw [execute_order_fail o l ep fq sl (by simpa using hflag)]
    exact hinv

/-- Over a fill sequence in which every settlement succeeded, the final cash
is the initial cash plus the sum of the per-fill signed cash deltas. -/
lemma run_fills_success_cash (fs : List Fill) :
    ∀ l : Ledger, (run_fills l fs).1 = true →
      (run_fills l fs).2.account.current_cash =
        l.account.current_cash + (fs.map Fill.cash_delta).sum := by
  induction fs with
  | nil => intro l _; simp [run_fills]
  | cons f fs ih =>
    intro l h
    simp only [run_fills, Bool.and_eq_true] at h
    obtain ⟨h1, h2⟩ := h
    simp only [run_fills]
    rw [ih _ h2,
      execute_order_success_cash f.order l f.execution_price
        f.filled_quantity f.slippage h1]
    simp only [List.map_cons, List.sum_cons, Fill.cash_delta, Fill.notional]
    by_cases hside : f.order.side = .BUY <;> simp [hside] <;> ring

/-- The position invariant `0 ≤ available ≤ quantity` is preserved by any
sequence of settlement calls with nonnegative effective quantities. -/
lemma run_fills_pos_invariant (fs : List Fill) :
    ∀ l : Ledger, (∀ f ∈ fs, 0 ≤ f.qty) →
      (∀ p, l.position = some p →
        0 ≤ p.available_quantity ∧ p.available_quantity ≤ p.quantity) →
      ∀ p, (run_fills l fs).2.position = some p →
        0 ≤ p.available_quantity ∧ p.available_quantity ≤ p.quantity := by
  induction fs with
  | nil => intro l _ hinv; simpa [run_fills] using hinv
  | cons f fs ih =>
    intro l hq hinv
    simp only [run_fills]
    exact ih _ (fun g hg => hq g (List.mem_cons_of_mem f hg))
      (execute_order_pos_invariant f.order l f.execution_price
        f.filled_quantity f.slippage (hq f (List.mem_cons_self f fs)) hinv)

/-- `available_quantity = quantity` is preserved by any sequence of
settlement calls. -/
lemma run_fills_avail_eq_qty (fs : List Fill) :
    ∀ l : Ledger,
      (∀ p, l.position = some p → p.available_quantity = p.quantity) →
      ∀ p, (run_fills l fs).2.position = some p →
        p.available_quantity = p.quantity := by
  induction fs with
  | nil => intro l hinv; simpa [run_fills] using hinv
  | cons f fs ih =>
    intro l hinv
    simp only [run_fills]
    exact ih _ (execute_order_avail_eq_qty f.order l f.execution_price
      f.filled_quantity f.slippage hinv)

/-- When neither the liquidity cap nor the random rejection of steps 1–2
fires, the simulator reports a FILLED or PARTIALLY_FILLED execution at the
slippage-adjusted market price. -/
lemma simulate_order_execution_pass (side : Side) (q cp : ℚ) (lp : Option ℚ)
    (r : Rand) (h1 : ¬ cp * q > MAX_ORDER_VALUE_USD)
    (h2 : ¬ r.reject_roll < BASE_REJECTION_PROBABILITY) :
    simulate_order_execution side q cp lp r =
      { status :=
          if cp * q > PARTIAL_FILL_THRESHOLD_USD ∧
             r.partial_roll < PARTIAL_FILL_PROBABILITY then
            OrderStatus.PARTIALLY_FILLED
          else OrderStatus.FILLED,
        execution_price := some
          (if side = .BUY then cp * (1 + r.slippage_bps / 10000)
           else cp / (1 + r.slippage_bps / 10000)),
        filled_quantity := some
          (if cp * q > PARTIAL_FILL_THRESHOLD_USD ∧
              r.partial_roll < PARTIAL_FILL_PROBABILITY then
            q * r.fill_pct
           else q),
        slippage := some
          (|(if side = .BUY then cp * (1 + r.slippage_bps / 10000)
             else cp / (1 + r.slippage_bps / 10000)) - cp| / cp),
        rejection_reason := none } := by
  unfold simulate_order_execution
  simp only [if_neg h1, if_neg h2]
  by_cases h3 : cp * q > PARTIAL_FILL_THRESHOLD_USD ∧
      r.partial_roll < PARTIAL_FILL_PROBABILITY
  · simp [h3]
  · simp [h3]

/-- The summed signed cash deltas split into SELL-side proceeds minus
BUY-side costs. -/
lemma cash_delta_sum_split (fs : List Fill) :
    (fs.map Fill.cash_delta).sum =
      ((fs.filter fun f => decide (f.order.side = .SELL)).map
        (fun f => f.notional - calc_commission f.notional)).sum -
      ((fs.filter fun f => decide (f.order.side = .BUY)).map
        (fun f => f.notional + calc_commission f.notional)).sum := by
  induction fs with
  | nil => simp
  | cons f fs ih =>
    cases hside : f.order.side
    · simp only [List.filter_cons, List.map_cons, List.sum_cons, hside,
        Fill.cash_delta, ih]
      simp +decide
      ring
    · simp only [List.filter_cons, List.map_cons, List.sum_cons, hside,
        Fill.cash_delta, ih]
      simp +decide
      ring

/-! ## Claims -/

/-- C1: Accounting closure.  For every sequence of settlement calls on one
account in which each call returns true, the final `current_cash` equals the
initial `current_cash` minus the sum over BUY fills of
(execution_price × filled_quantity + commission) plus the sum over SELL fills
of (execution_price × filled_quantity − commission), exactly, where
commission(n) = max(n × COMMISSION_RATE, MIN_COMMISSION). -/
theorem C1_accounting_closure (l : Ledger) (fs : List Fill)
    (h : (run_fills l fs).1 = true) :
    (run_fills l fs).2.account.current_cash =
      l.account.current_cash -
        ((fs.filter fun f => decide (f.order.side = .BUY)).map
          (fun f => f.notional + calc_commission f.notional)).sum +
        ((fs.filter fun f => decide (f.order.side = .SELL)).map
          (fun f => f.notional - calc_commission f.notional)).sum := by
  rw [run_fills_success_cash fs l h, cash_delta_sum_split fs]
  ring

/-- Witness for C1: a concrete BUY-then-SELL sequence on a fresh account. -/
theorem C1_accounting_closure_witness :
    (run_fills wLedger [wBuyFill, wSellFill]).1 = true ∧
    (run_fills wLedger [wBuyFill, wSellFill]).2.account.current_cash =
      wLedger.account.current_cash -
        (([wBuyFill, wSellFill].filter
            fun f => decide (f.order.side = .BUY)).map
          (fun f => f.notional + calc_commission f.notional)).sum +
        (([wBuyFill, wSellFill].filter
            fun f => decide (f.order.side = .SELL)).map
          (fun f => f.notional - calc_commission f.notional)).sum := by
  have h : (run_fills wLedger [wBuyFill, wSellFill]).1 = true := by
    norm_num +decide [run_fills, execute_order, finish_fill,
      release_frozen_on_fill, calc_commission, CRYPTO_COMMISSION_RATE,
      CRYPTO_MIN_COMMISSION, wLedger, wBuyFill, wSellFill, sampleOrder,
      sampleLedger]
  exact ⟨h, C1_accounting_closure wLedger [wBuyFill, wSellFill] h⟩

/-- C2: Position non-negativity.  Any sequence of settlement calls with
nonnegative effective quantities preserves `0 ≤ available_quantity ≤
quantity` (hence neither field goes below zero), and a SELL settlement whose
effective quantity exceeds the available quantity returns false without
mutating the position, account or order (abort, not clamp). -/
theorem C2_position_nonneg :
    (∀ (l : Ledger) (fs : List Fill), (∀ f ∈ fs, 0 ≤ f.qty) →
      (∀ p, l.position = some p →
        0 ≤ p.available_quantity ∧ p.available_quantity ≤ p.quantity) →
      ∀ p, (run_fills l fs).2.position = some p →
        0 ≤ p.available_quantity ∧ p.available_quantity ≤ p.quantity) ∧
    (∀ (o : Order) (l : Ledger) (ep : ℚ) (fq sl : Option ℚ) (p : Position),
      o.side = .SELL → l.position = some p →
      p.available_quantity < settleQty o fq →
      execute_order o l ep fq sl = (false, o, l)) := by
  constructor
  · exact fun l fs hq hinv => run_fills_pos_invariant fs l hq hinv
  · intro o l ep fq sl p hside hp hc
    exact execute_order_sell_insufficient o l ep fq sl
      (by simp [hside]) p hp hc

/-- Witness for C2: the invariant after a concrete BUY fill, and a concrete
over-sell abort (sell 2 units with 1 available). -/
theorem C2_position_nonneg_witness :
    (∀ p, (run_fills wLedger [wBuyFill]).2.position = some p →
      0 ≤ p.available_quantity ∧ p.available_quantity ≤ p.quantity) ∧
    execute_order (sampleOrder .SELL .MARKET none 2) wPosLedger 10 none none =
      (false, sampleOrder .SELL .MARKET none 2, wPosLedger) := by
  constructor
  · exact C2_position_nonneg.1 wLedger [wBuyFill]
      (by intro f hf; simp at hf; subst hf; norm_num [Fill.qty, settleQty,
        wBuyFill, sampleOrder])
      (by intro p hp; simp [wLedger, sampleLedger] at hp)
  · exact C2_position_nonneg.2 (sampleOrder .SELL .MARKET none 2) wPosLedger
      10 none none ⟨1, 1, 0⟩ rfl rfl
      (by norm_num [settleQty, sampleOrder, wPosLedger, sampleLedger])

lemma sampleOrder_side (s : Side) (t : OrderType) (p : Option ℚ) (q : ℚ) :
    (sampleOrder s t p q).side = s := rfl

lemma sampleOrder_quantity (s : Side) (t : OrderType) (p : Option ℚ)
    (q : ℚ) : (sampleOrder s t p q).quantity = q := rfl

/-- A side that is not BUY is SELL. -/
lemma side_eq_sell_of_ne_buy {s : Side} (h : s ≠ .BUY) : s = .SELL := by
  cases s
  · exact absurd rfl h
  · rfl

/-- C3 (amended): non-negativity of `current_cash` and `frozen_cash`.  Every
settlement and cancellation preserves `frozen_cash ≥ 0` (releases are floored
at zero), and preserves `current_cash ≥ 0` unconditionally for BUY settlements
and cancellations; for SELL settlements `current_cash ≥ 0` is preserved
provided the commission does not exceed the notional (which fails exactly for
notionals below the minimum commission — see the counterexample). -/
theorem C3_cash_nonneg :
    (∀ (o : Order) (l : Ledger) (ep : ℚ) (fq sl : Option ℚ),
      0 ≤ l.account.current_cash → 0 ≤ l.account.frozen_cash →
      (o.side = .SELL →
        calc_commission (settleNotional o ep fq) ≤ settleNotional o ep fq) →
      0 ≤ (execute_order o l ep fq sl).2.2.account.current_cash ∧
      0 ≤ (execute_order o l ep fq sl).2.2.account.frozen_cash) ∧
    (∀ (o : Order) (l : Ledger),
      0 ≤ l.account.current_cash → 0 ≤ l.account.frozen_cash →
      0 ≤ (cancel_order o l).2.2.account.current_cash ∧
      0 ≤ (cancel_order o l).2.2.account.frozen_cash) := by
  constructor
  · intro o l ep fq sl hcash hfrozen hsell
    by_cases hflag : (execute_order o l ep fq sl).1 = true
    · by_cases hside : o.side = .BUY
      · have hc := execute_order_buy_success_sufficient o l ep fq sl hside
          hflag
        rw [execute_order_buy_eq o l ep fq sl hside hc]
        constructor
        · rw [release_frozen_on_fill_current_cash]
          exact sub_nonneg.mpr (not_lt.mp hc)
        · exact release_frozen_on_fill_frozen_nonneg _ o ep _ hfrozen
      · obtain ⟨p, hp, hav⟩ :=
          execute_order_sell_success_sufficient o l ep fq sl hside hflag
        rw [execute_order_sell_eq o l ep fq sl hside p hp hav]
        refine ⟨add_nonneg hcash ?_, hfrozen⟩
        exact sub_nonneg.mpr (hsell (side_eq_sell_of_ne_buy hside))
    · rw [execute_order_fail o l ep fq sl (by simpa using hflag)]
      exact ⟨hcash, hfrozen⟩
  · intro o l hcash hfrozen
    unfold cancel_order
    by_cases hs : o.status ≠ .PENDING
    · simp only [hs, ite_true, if_pos hs]
      exact ⟨hcash, hfrozen⟩
    · simp only [hs, ite_false, if_neg hs]
      exact ⟨by rw [release_frozen_on_cancel_current_cash]; exact hcash,
        release_frozen_on_cancel_frozen_nonneg _ _ hfrozen⟩

/-- Witness for C3 (amended): a concrete BUY settlement and a concrete
cancellation both keep the account fields nonnegative. -/
theorem C3_cash_nonneg_witness :
    (0 ≤ (execute_order (sampleOrder .BUY .MARKET none 1) wLedger 10 none
        none).2.2.account.current_cash ∧
     0 ≤ (execute_order (sampleOrder .BUY .MARKET none 1) wLedger 10 none
        none).2.2.account.frozen_cash) ∧
    (0 ≤ (cancel_order (sampleOrder .BUY .LIMIT (some 10) 1)
        wLedger).2.2.account.current_cash ∧
     0 ≤ (cancel_order (sampleOrder .BUY .LIMIT (some 10) 1)
        wLedger).2.2.account.frozen_cash) := by
  constructor
  · exact C3_cash_nonneg.1 (sampleOrder .BUY .MARKET none 1) wLedger 10 none
      none (by norm_num [wLedger, sampleLedger])
      (by norm_num [wLedger, sampleLedger])
      (by intro h; simp [sampleOrder] at h)
  · exact C3_cash_nonneg.2 (sampleOrder .BUY .LIMIT (some 10) 1) wLedger
      (by norm_num [wLedger, sampleLedger])
      (by norm_num [wLedger, sampleLedger])

/-- Counterexample to C3 as stated: selling 1 unit at price 1/2 from an
account with cash 0 and frozen 0 (both nonnegative) settles successfully
(returns true) yet leaves `current_cash = 1/2 − max(1/4000, 1) = −1/2 < 0`:
the minimum commission exceeds the notional and the code performs no check
before crediting `notional − commission`. -/
theorem C3_cash_nonneg_counterexample :
    0 ≤ (sampleLedger 0 0 (some ⟨1, 1, 0⟩)).account.current_cash ∧
    0 ≤ (sampleLedger 0 0 (some ⟨1, 1, 0⟩)).account.frozen_cash ∧
    (execute_order (sampleOrder .SELL .MARKET none 1)
      (sampleLedger 0 0 (some ⟨1, 1, 0⟩)) (1 / 2) none none).1 = true ∧
    (execute_order (sampleOrder .SELL .MARKET none 1)
      (sampleLedger 0 0 (some ⟨1, 1, 0⟩)) (1 / 2) none
        none).2.2.account.current_cash < 0 := by
  norm_num +decide [execute_order, finish_fill, release_frozen_on_fill,
    calc_commission, CRYPTO_COMMISSION_RATE, CRYPTO_MIN_COMMISSION,
    sampleOrder, sampleLedger]

/-- Position after a successful BUY settlement: both quantities grow by the
settled quantity and the average cost follows the weighted-average update. -/
lemma execute_order_buy_position (o : Order) (l : Ledger) (ep : ℚ)
    (fq sl : Option ℚ) (hside : o.side = .BUY)
    (hflag : (execute_order o l ep fq sl).1 = true) :
    (execute_order o l ep fq sl).2.2.position = some
      { quantity := (l.position.getD ⟨0, 0, 0⟩).quantity + settleQty o fq,
        available_quantity :=
          (l.position.getD ⟨0, 0, 0⟩).available_quantity + settleQty o fq,
        avg_cost :=
          if (l.position.getD ⟨0, 0, 0⟩).quantity = 0 then ep
          else ((l.position.getD ⟨0, 0, 0⟩).avg_cost *
                  (l.position.getD ⟨0, 0, 0⟩).quantity +
                settleNotional o ep fq) /
               ((l.position.getD ⟨0, 0, 0⟩).quantity + settleQty o fq) } := by
  rw [execute_order_buy_eq o l ep fq sl hside
    (execute_order_buy_success_sufficient o l ep fq sl hside hflag)]

/-- C4: Weighted-average-cost correctness.  A successful BUY settlement on a
position with old quantity q₀ and average cost c₀ sets the new average cost
to the execution price when q₀ = 0 and to
(c₀·q₀ + execution_price·filled_qty) / (q₀ + filled_qty) otherwise; in
particular, two BUY fills (q₁, p₁) then (q₂, p₂) starting from no position
yield avg_cost = (q₁·p₁ + q₂·p₂)/(q₁ + q₂) exactly. -/
theorem C4_weighted_avg_cost :
    (∀ (o : Order) (l : Ledger) (ep : ℚ) (fq sl : Option ℚ) (p0 : Position),
      o.side = .BUY → l.position = some p0 →
      (execute_order o l ep fq sl).1 = true →
      ∃ p, (execute_order o l ep fq sl).2.2.position = some p ∧
        p.avg_cost =
          if p0.quantity = 0 then ep
          else (p0.avg_cost * p0.quantity + ep * settleQty o fq) /
               (p0.quantity + settleQty o fq)) ∧
    (∀ (l : Ledger) (q1 p1 q2 p2 : ℚ), 0 < q1 → 0 < q2 → l.position = none →
      (run_fills l
        [{ order := sampleOrder .BUY .MARKET none q1, execution_price := p1,
           filled_quantity := none, slippage := none },
         { order := sampleOrder .BUY .MARKET none q2, execution_price := p2,
           filled_quantity := none, slippage := none }]).1 = true →
      ∃ p,
        (run_fills l
          [{ order := sampleOrder .BUY .MARKET none q1, execution_price := p1,
             filled_quantity := none, slippage := none },
           { order := sampleOrder .BUY .MARKET none q2, execution_price := p2,
             filled_quantity := none, slippage := none }]).2.position = some p ∧
        p.avg_cost = (q1 * p1 + q2 * p2) / (q1 + q2)) := by
  constructor
  · intro o l ep fq sl p0 hside hp hflag
    refine ⟨_, execute_order_buy_position o l ep fq sl hside hflag, ?_⟩
    simp [hp, settleNotional]
  · intro l q1 p1 q2 p2 hq1 hq2 hpos h
    simp only [run_fills, Bool.and_eq_true, Bool.and_true] at h ⊢
    obtain ⟨h1, h2⟩ := h
    have hpos1 := execute_order_buy_position
      (sampleOrder .BUY .MARKET none q1) l p1 none none rfl h1
    rw [hpos, Option.getD_none] at hpos1
    simp only [settleQty, Option.getD_none, sampleOrder_quantity, zero_add,
      ite_true] at hpos1
    have hpos2 := execute_order_buy_position
      (sampleOrder .BUY .MARKET none q2) _ p2 none none rfl h2
    rw [hpos1] at hpos2
    refine ⟨_, hpos2, ?_⟩
    simp only [settleQty, settleNotional, Option.getD_some, Option.getD_none,
      sampleOrder_quantity]
    rw [if_neg hq1.ne']
    ring_nf

/-- Witness for C4: buy 1 at price 2 then 1 at price 4 from no position gives
average cost 3. -/
theorem C4_weighted_avg_cost_witness :
    (∃ p, (execute_order (sampleOrder .BUY .MARKET none 1) wPosLedger 10 none
        none).2.2.position = some p ∧
      p.avg_cost =
        if (⟨1, 1, 0⟩ : Position).quantity = 0 then (10 : ℚ)
        else ((⟨1, 1, 0⟩ : Position).avg_cost *
                (⟨1, 1, 0⟩ : Position).quantity +
              10 * settleQty (sampleOrder .BUY .MARKET none 1) none) /
             ((⟨1, 1, 0⟩ : Position).quantity +
              settleQty (sampleOrder .BUY .MARKET none 1) none)) ∧
    (∃ p,
      (run_fills wLedger
        [{ order := sampleOrder .BUY .MARKET none 1, execution_price := 2,
           filled_quantity := none, slippage := none },
         { order := sampleOrder .BUY .MARKET none 1, execution_price := 4,
           filled_quantity := none, slippage := none }]).2.position = some p ∧
      p.avg_cost = ((1 : ℚ) * 2 + 1 * 4) / (1 + 1)) := by
  constructor
  · exact C4_weighted_avg_cost.1 (sampleOrder .BUY .MARKET none 1) wPosLedger
      10 none none ⟨1, 1, 0⟩ rfl rfl
      (by norm_num +decide [execute_order, finish_fill,
        release_frozen_on_fill, calc_commission, CRYPTO_COMMISSION_RATE,
        CRYPTO_MIN_COMMISSION, sampleOrder, wPosLedger, sampleLedger])
  · exact C4_weighted_avg_cost.2 wLedger 1 2 1 4 (by norm_num) (by norm_num)
      rfl
      (by norm_num +decide [run_fills, execute_order, finish_fill,
        release_frozen_on_fill, calc_commission, CRYPTO_COMMISSION_RATE,
        CRYPTO_MIN_COMMISSION, sampleOrder, wLedger, sampleLedger])

/-- C5: Simulator boundary behaviour.  The liquidity-cap rejection fires iff
`order_value = current_price × quantity` strictly exceeds MAX_ORDER_VALUE (an
order exactly at the cap is not cap-rejected), and a PARTIALLY_FILLED result
can only arise when the order value strictly exceeds the partial-fill
threshold. -/
theorem C5_simulator_boundaries (side : Side) (quantity current_price : ℚ)
    (lp : Option ℚ) (r : Rand) :
    ((simulate_order_execution side quantity current_price
        lp r).rejection_reason = some .liquidityCap ↔
      current_price * quantity > MAX_ORDER_VALUE_USD) ∧
    ((simulate_order_execution side quantity current_price lp r).status
        = .PARTIALLY_FILLED →
      current_price * quantity > PARTIAL_FILL_THRESHOLD_USD) ∧
    (current_price * quantity = MAX_ORDER_VALUE_USD →
      (simulate_order_execution side quantity current_price
        lp r).rejection_reason ≠ some .liquidityCap) := by
  unfold simulate_order_execution
  by_cases h1 : current_price * quantity > MAX_ORDER_VALUE_USD
  · refine ⟨by simp [h1], by simp +decide [h1], ?_⟩
    intro he
    rw [he] at h1
    exact absurd h1 (lt_irrefl _)
  · by_cases h2 : r.reject_roll < BASE_REJECTION_PROBABILITY
    · simp +decide [h1, h2]
    · by_cases h3 : current_price * quantity > PARTIAL_FILL_THRESHOLD_USD ∧
          r.partial_roll < PARTIAL_FILL_PROBABILITY
      · refine ⟨by simp [h1, h2, h3], by simp +decide [h1, h2, h3, h3.1], ?_⟩
        simp [h1, h2]
      · simp +decide [h1, h2, h3]

/-- Witness for C5: an order valued exactly at the cap, with draws that pass
the random-rejection and partial-fill rolls, is not cap-rejected. -/
theorem C5_simulator_boundaries_witness :
    (simulate_order_execution .BUY 1 100000 none
      { reject_roll := 1, slippage_bps := 0, partial_roll := 1,
        fill_pct := 1 }).rejection_reason ≠ some .liquidityCap :=
  (C5_simulator_boundaries .BUY 1 100000 none
    { reject_roll := 1, slippage_bps := 0, partial_roll := 1,
      fill_pct := 1 }).2.2 (by norm_num [MAX_ORDER_VALUE_USD])

/-- C7: Settlement race abort.  A BUY settlement finding
`current_cash < notional + commission` at execution time returns false with
the order (still PENDING), account, position and trade records unchanged. -/
theorem C7_buy_race_abort (o : Order) (l : Ledger) (ep : ℚ)
    (fq sl : Option ℚ) (hside : o.side = .BUY)
    (hcash : l.account.current_cash <
      settleNotional o ep fq + calc_commission (settleNotional o ep fq)) :
    execute_order o l ep fq sl = (false, o, l) :=
  execute_order_buy_insufficient o l ep fq sl hside hcash

/-- Witness for C7: buying 1 unit at price 10 with zero cash aborts with no
mutation. -/
theorem C7_buy_race_abort_witness :
    execute_order (sampleOrder .BUY .MARKET none 1) (sampleLedger 0 0 none)
      10 none none =
      (false, sampleOrder .BUY .MARKET none 1, sampleLedger 0 0 none) :=
  C7_buy_race_abort (sampleOrder .BUY .MARKET none 1) (sampleLedger 0 0 none)
    10 none none rfl
    (by norm_num [settleNotional, settleQty, sampleOrder, sampleLedger,
      calc_commission, CRYPTO_COMMISSION_RATE, CRYPTO_MIN_COMMISSION])

/-- C8: Idempotent cancellation.  Cancelling a PENDING order returns true and
marks it CANCELLED; cancelling again (or cancelling any non-PENDING order)
returns false and mutates nothing — in particular there is no second
frozen-cash release. -/
theorem C8_idempotent_cancellation (o : Order) (l : Ledger) :
    (o.status ≠ .PENDING → cancel_order o l = (false, o, l)) ∧
    (o.status = .PENDING →
      (cancel_order o l).1 = true ∧
      (cancel_order o l).2.1.status = .CANCELLED ∧
      cancel_order (cancel_order o l).2.1 (cancel_order o l).2.2 =
        (false, (cancel_order o l).2.1, (cancel_order o l).2.2)) := by
  constructor
  · intro h
    unfold cancel_order
    simp [h]
  · intro h
    have h1 : cancel_order o l =
        (true, cancelledOrder o,
          { l with
            account := release_frozen_on_cancel l.account
              (cancelledOrder o) }) := by
      unfold cancel_order
      simp [h]
    rw [h1]
    refine ⟨rfl, rfl, ?_⟩
    unfold cancel_order
    simp +decide [cancelledOrder]

/-- Witness for C8: cancelling a concrete PENDING limit BUY succeeds, and the
second cancellation is a no-op returning false. -/
theorem C8_idempotent_cancellation_witness :
    (cancel_order (sampleOrder .BUY .LIMIT (some 10) 1) wLedger).1 = true ∧
    (cancel_order (sampleOrder .BUY .LIMIT (some 10) 1) wLedger).2.1.status
      = .CANCELLED ∧
    cancel_order
        (cancel_order (sampleOrder .BUY .LIMIT (some 10) 1) wLedger).2.1
        (cancel_order (sampleOrder .BUY .LIMIT (some 10) 1) wLedger).2.2 =
      (false,
       (cancel_order (sampleOrder .BUY .LIMIT (some 10) 1) wLedger).2.1,
       (cancel_order (sampleOrder .BUY .LIMIT (some 10) 1) wLedger).2.2) :=
  (C8_idempotent_cancellation (sampleOrder .BUY .LIMIT (some 10) 1)
    wLedger).2 rfl

/-- C6: Matching-engine trigger condition.  `check_and_execute_order` is a
no-op returning false on non-PENDING orders; a PENDING LIMIT BUY is eligible
iff its limit price is at or above the market price and a PENDING LIMIT SELL
iff at or below; an ineligible order is returned unchanged (still PENDING);
and when an eligible order settles, the recorded trade price is derived from
the current market price (market price adjusted by the slippage draw), never
from the limit price. -/
theorem C6_matching_trigger (o : Order) (l : Ledger) (cp : ℚ) (r : Rand) :
    (o.status ≠ .PENDING → check_and_execute_order o l cp r = (false, o, l)) ∧
    (∀ lp, o.order_type = .LIMIT → o.price = some lp →
      (should_execute o cp = true ↔
        (if o.side = .BUY then cp ≤ lp else lp ≤ cp))) ∧
    (o.status = .PENDING → should_execute o cp = false →
      check_and_execute_order o l cp r = (false, o, l)) ∧
    (o.status = .PENDING → should_execute o cp = true →
      ¬ cp * o.quantity > MAX_ORDER_VALUE_USD →
      ¬ r.reject_roll < BASE_REJECTION_PROBABILITY →
      (check_and_execute_order o l cp r).1 = true →
      ∃ t, (check_and_execute_order o l cp r).2.2.trades = l.trades ++ [t] ∧
        t.price = (if o.side = .BUY then cp * (1 + r.slippage_bps / 10000)
                   else cp / (1 + r.slippage_bps / 10000))) := by
  refine ⟨?_, ?_, ?_, ?_⟩
  · intro h
    unfold check_and_execute_order
    simp [h]
  · intro lp ht hp
    unfold should_execute
    rw [ht, hp]
    by_cases hs : o.side = .BUY <;> simp [hs, ge_iff_le]
  · intro h hs
    unfold check_and_execute_order
    simp [h, hs]
  · intro hpend hse hcap hrej hflag
    unfold check_and_execute_order at hflag ⊢
    rw [simulate_order_execution_pass o.side o.quantity cp o.price r hcap
      hrej] at hflag ⊢
    simp only [hpend, hse] at hflag ⊢
    by_cases h3 : cp * o.quantity > PARTIAL_FILL_THRESHOLD_USD ∧
        r.partial_roll < PARTIAL_FILL_PROBABILITY
    · simp only [h3, ite_true, if_pos h3] at hflag ⊢
      simp +decide at hflag ⊢
      exact ⟨_, execute_order_success_trades o l _ _ _ hflag, rfl⟩
    · simp only [h3, ite_false, if_neg h3] at hflag ⊢
      simp +decide at hflag ⊢
      exact ⟨_, execute_order_success_trades o l _ _ _ hflag, rfl⟩

/-- Witness for C6: a CANCELLED order is a no-op; a LIMIT BUY at 5 against
market 10 is ineligible and unchanged; a LIMIT BUY at 20 against market 10
settles and its trade is priced at the market price 10, not at 20. -/
theorem C6_matching_trigger_witness :
    check_and_execute_order (cancelledOrder (sampleOrder .BUY .LIMIT (some 5)
        1)) wLedger 10 ⟨1, 0, 1, 1⟩ =
      (false, cancelledOrder (sampleOrder .BUY .LIMIT (some 5) 1), wLedger) ∧
    check_and_execute_order (sampleOrder .BUY .LIMIT (some 5) 1) wLedger 10
        ⟨1, 0, 1, 1⟩ =
      (false, sampleOrder .BUY .LIMIT (some 5) 1, wLedger) ∧
    (∃ t,
      (check_and_execute_order (sampleOrder .BUY .LIMIT (some 20) 1) wLedger
        10 ⟨1, 0, 1, 1⟩).2.2.trades = wLedger.trades ++ [t] ∧
      t.price =
        (if (sampleOrder .BUY .LIMIT (some 20) 1).side = .BUY then
          (10 : ℚ) * (1 + (0 : ℚ) / 10000)
         else (10 : ℚ) / (1 + (0 : ℚ) / 10000))) := by
  refine ⟨?_, ?_, ?_⟩
  · exact (C6_matching_trigger (cancelledOrder (sampleOrder .BUY .LIMIT
      (some 5) 1)) wLedger 10 ⟨1, 0, 1, 1⟩).1
      (by simp +decide [cancelledOrder, sampleOrder])
  · exact (C6_matching_trigger (sampleOrder .BUY .LIMIT (some 5) 1) wLedger
      10 ⟨1, 0, 1, 1⟩).2.2.1 rfl
      (by norm_num +decide [should_execute, sampleOrder])
  · exact (C6_matching_trigger (sampleOrder .BUY .LIMIT (some 20) 1) wLedger
      10 ⟨1, 0, 1, 1⟩).2.2.2 rfl
      (by norm_num +decide [should_execute, sampleOrder])
      (by norm_num [sampleOrder, MAX_ORDER_VALUE_USD])
      (by norm_num [BASE_REJECTION_PROBABILITY])
      (by norm_num +decide [check_and_execute_order, should_execute,
        simulate_order_execution, execute_order, finish_fill,
        release_frozen_on_fill, calc_commission, CRYPTO_COMMISSION_RATE,
        CRYPTO_MIN_COMMISSION, MAX_ORDER_VALUE_USD,
        PARTIAL_FILL_THRESHOLD_USD, PARTIAL_FILL_PROBABILITY,
        BASE_REJECTION_PROBABILITY, sampleOrder, wLedger, sampleLedger])

/-- C9: Simulator-rejection frame effect.  When the simulator returns
REJECTED for a pending, eligible order, `check_and_execute_order` marks the
order REJECTED with the simulator's rejection reason, returns false, creates
no trade, and leaves the account and position untouched. -/
theorem C9_sim_rejection_frame (o : Order) (l : Ledger) (cp : ℚ) (r : Rand)
    (hpend : o.status = .PENDING) (hse : should_execute o cp = true)
    (hrej : (simulate_order_execution o.side o.quantity cp o.price r).status
      = .REJECTED) :
    check_and_execute_order o l cp r =
      (false,
       rejectedOrder o
         (simulate_order_execution o.side o.quantity cp o.price
           r).rejection_reason,
       l) := by
  unfold check_and_execute_order
  simp [hpend, hse, hrej]

/-- Witness for C9: a MARKET BUY of 2 units at market price 100000 has order
value 200000 above the cap, so the simulator rejects it and the order is
marked REJECTED with the liquidity reason, nothing else changing. -/
theorem C9_sim_rejection_frame_witness :
    check_and_execute_order (sampleOrder .BUY .MARKET none 2) wLedger 100000
        ⟨1, 0, 1, 1⟩ =
      (false,
       rejectedOrder (sampleOrder .BUY .MARKET none 2)
         (simulate_order_execution .BUY 2 100000 none
           ⟨1, 0, 1, 1⟩).rejection_reason,
       wLedger) :=
  C9_sim_rejection_frame (sampleOrder .BUY .MARKET none 2) wLedger 100000
    ⟨1, 0, 1, 1⟩ rfl rfl
    (by norm_num [simulate_order_execution, sampleOrder,
      MAX_ORDER_VALUE_USD])

/-- C10 (implicit): `available_quantity` always equals `quantity`.  Every
settlement changes both fields by the same amount (BUY adds the filled
quantity to both, creating the position at (0, 0) when absent; SELL subtracts
it from both), so the equality is preserved by any sequence of settlement
calls — in particular from a ledger with no position yet.  Order creation
(`create_order`) only reads the ledger (its embedding returns just the new
PENDING order with zero filled quantity) and reserves nothing. -/
theorem C10_available_eq_quantity :
    (∀ (l : Ledger) (fs : List Fill),
      (∀ p, l.position = some p → p.available_quantity = p.quantity) →
      ∀ p, (run_fills l fs).2.position = some p →
        p.available_quantity = p.quantity) ∧
    (∀ (a : Account) (pos : Option Position) (s : Side) (t : OrderType)
        (pr : Option ℚ) (q : ℚ) (mp : Option ℚ) (o : Order),
      create_order a pos s t pr q mp = .ok o →
      o.status = .PENDING ∧ o.filled_quantity = 0) := by
  constructor
  · exact fun l fs => run_fills_avail_eq_qty fs l
  · intro a pos s t pr q mp o h
    unfold create_order at h
    by_cases h1 : q ≤ 0
    · simp [h1] at h
    · simp only [h1, ite_false, if_neg h1] at h
      by_cases h2 : t = .LIMIT ∧ (pr.getD 0) ≤ 0
      · simp [h2] at h
      · simp only [h2, ite_false, if_neg h2] at h
        cases hcp : (match t with | .MARKET => mp | .LIMIT => pr) with
        | none => rw [hcp] at h; simp at h
        | some check_price =>
          rw [hcp] at h
          by_cases hs : s = .BUY
          · simp only [hs, ite_true] at h
            by_cases h3 : a.current_cash <
                check_price * q + calc_commission (check_price * q)
            · simp [h3, Except.map] at h
            · simp only [h3, ite_false, if_neg h3, Except.map] at h
              obtain rfl := (Except.ok.injEq _ _ ▸ h :)
              exact ⟨rfl, rfl⟩
          · simp only [hs, ite_false] at h
            cases hpos : pos with
            | none => rw [hpos] at h; simp [Except.map] at h
            | some p =>
              rw [hpos] at h
              by_cases h4 : p.available_quantity < q
              · simp [h4, Except.map] at h
              · simp only [h4, ite_false, if_neg h4, Except.map] at h
                obtain rfl := (Except.ok.injEq _ _ ▸ h :)
                exact ⟨rfl, rfl⟩

/-- Witness for C10: after a concrete BUY fill from an empty ledger the
position has equal quantities, and a concrete SELL order creation yields a
PENDING order with zero filled quantity. -/
theorem C10_available_eq_quantity_witness :
    ((run_fills wLedger [wBuyFill]).2.position.getD
        ⟨0, 0, 0⟩).available_quantity =
      ((run_fills wLedger [wBuyFill]).2.position.getD ⟨0, 0, 0⟩).quantity ∧
    ((sampleOrder .SELL .LIMIT (some 10) 1).status = .PENDING ∧
     (sampleOrder .SELL .LIMIT (some 10) 1).filled_quantity = 0) := by
  have hp : (run_fills wLedger [wBuyFill]).2.position =
      some ⟨1, 1, 10⟩ := by
    norm_num +decide [run_fills, execute_order, finish_fill,
      release_frozen_on_fill, calc_commission, CRYPTO_COMMISSION_RATE,
      CRYPTO_MIN_COMMISSION, wLedger, wBuyFill, sampleOrder, sampleLedger]
  have hc : create_order wPosLedger.account wPosLedger.position .SELL .LIMIT
      (some 10) 1 none = .ok (sampleOrder .SELL .LIMIT (some 10) 1) := by
    norm_num +decide [create_order, wPosLedger, sampleLedger, sampleOrder,
      Except.map]
  constructor
  · have h1 := C10_available_eq_quantity.1 wLedger [wBuyFill]
      (by intro p hp0; simp [wLedger, sampleLedger] at hp0) ⟨1, 1, 10⟩ hp
    rw [hp]
    exact h1
  · exact C10_available_eq_quantity.2 wPosLedger.account wPosLedger.position
      .SELL .LIMIT (some 10) 1 none (sampleOrder .SELL .LIMIT (some 10) 1) hc

end Arena
